import Mathlib

/-!
Shallow embedding of the Anthropic request/response translator of
`adk-go` (packages `internal/anthropicllm/converters` and `model/anthropic`).

Go slices of pointers (`[]*T`) are modelled as `List (Option T)`, Go maps
with string keys (`map[string]any`) as association lists `List (String × JSON)`,
Go `error` returns as `Except String`, and Go's `int32(x)` conversion of an
`int64` as two's-complement truncation on `Int` (`toInt32`).  Names follow the
Go source (`request.go`, `response.go`, `tools.go`, `anthropic.go`).
-/

namespace ADK

/-- Universal stand-in for Go's `any` restricted to JSON-representable values,
used for `map[string]any` payloads (function-call arguments, function-response
results, tool schemas). -/
inductive JSON where
  | null
  | str (s : String)
  | num (n : Int)
  | boolean (b : Bool)
  | arr (xs : List JSON)
  | obj (fields : List (String × JSON))

mutual
/-- Model of Go `json.Marshal` on a JSON-representable value (string escaping
elided; no claim inspects the serialized text). -/
def jsonMarshal : JSON → String
  | .null => "null"
  | .str s => "\"" ++ s ++ "\""
  | .num n => toString n
  | .boolean b => if b then "true" else "false"
  | .arr xs => "[" ++ jsonMarshalList xs ++ "]"
  | .obj fields => "\x7b" ++ jsonMarshalFields fields ++ "\x7d"

/-- Serialization of a JSON array's elements, comma separated. -/
def jsonMarshalList : List JSON → String
  | [] => ""
  | [x] => jsonMarshal x
  | x :: rest => jsonMarshal x ++ "," ++ jsonMarshalList rest

/-- Serialization of a JSON object's fields, comma separated. -/
def jsonMarshalFields : List (String × JSON) → String
  | [] => ""
  | [(n, v)] => "\"" ++ n ++ "\":" ++ jsonMarshal v
  | (n, v) :: rest => "\"" ++ n ++ "\":" ++ jsonMarshal v ++ "," ++ jsonMarshalFields rest
end

/-- ASCII lower-casing of one character (Go `strings.ToLower` restricted to
ASCII, which covers every comparison the translator performs). -/
def charToLower (c : Char) : Char :=
  if 65 ≤ c.toNat ∧ c.toNat ≤ 90 then Char.ofNat (c.toNat + 32) else c

/-- Model of Go `strings.ToLower`. -/
def strToLower (s : String) : String := String.mk (s.toList.map charToLower)

/-- Model of Go `strings.HasPrefix`. -/
def strHasPrefix (p s : String) : Bool := p.toList.isPrefixOf s.toList

/-- Alphabet of standard base64 (RFC 4648). -/
def base64Chars : List Char :=
  "ABCDEFGHIJKLMNOPQRSTUVWXYZabcdefghijklmnopqrstuvwxyz0123456789+/".toList

/-- Character of the base64 alphabet at index `n`. -/
def b64At (n : Nat) : Char := base64Chars.getD n 'A'

/-- Model of Go `base64.StdEncoding.EncodeToString` over a byte list. -/
def base64Encode : List Nat → String
  | [] => ""
  | [a] => String.mk [b64At (a / 4 % 64), b64At (a % 4 * 16), '=', '=']
  | [a, b] =>
    String.mk [b64At (a / 4 % 64), b64At (a % 4 * 16 + b / 16), b64At (b % 16 * 4), '=']
  | a :: b :: c :: rest =>
    String.mk [b64At (a / 4 % 64), b64At (a % 4 * 16 + b / 16),
      b64At (b % 16 * 4 + c / 64), b64At (c % 64)] ++ base64Encode rest

/-- Value of a base64 character (inverse of `b64At`; 0 for foreign characters,
matching a best-effort decode whose errors are discarded by the caller). -/
def b64Val (c : Char) : Nat := (base64Chars.indexOf c) % 64

/-- Decoding of base64 sextets back into bytes, four at a time. -/
def b64DecodeChunks : List Nat → List Nat
  | a :: b :: c :: d :: rest =>
    (a * 4 + b / 16) :: (b % 16 * 16 + c / 4) :: (c % 4 * 64 + d) :: b64DecodeChunks rest
  | [a, b] => [a * 4 + b / 16]
  | [a, b, c] => [a * 4 + b / 16, b % 16 * 16 + c / 4]
  | _ => []

/-- Model of Go `base64.StdEncoding.DecodeString` with the error ignored, as in
`ContentBlockToGenaiPart`. -/
def base64Decode (s : String) : List Nat :=
  b64DecodeChunks ((s.toList.filter (fun c => c ≠ '=')).map b64Val)

/-- genai.FunctionCall: id, name, argument map (`Args map[string]any`, which
may be nil). -/
structure FunctionCall where
  id : String := ""
  name : String := ""
  args : Option (List (String × JSON)) := none

/-- genai.FunctionResponse: id, name, result map (`Response map[string]any`,
which may be nil). -/
structure FunctionResponse where
  id : String := ""
  name : String := ""
  response : Option (List (String × JSON)) := none

/-- genai.Blob: inline binary data with a MIME type. -/
structure Blob where
  mimeType : String := ""
  data : List Nat := []

/-- genai.FileData: URI-based file reference with a MIME type. -/
structure FileData where
  mimeType : String := ""
  fileURI : String := ""

/-- genai.Part: a tagged-union-by-nil-pointers content item.  The
`executableCode` / `codeExecutionResult` booleans model pointer presence of
the two unsupported variants. -/
structure Part where
  text : String := ""
  thought : Bool := false
  thoughtSignature : List Nat := []
  inlineData : Option Blob := none
  fileData : Option FileData := none
  functionCall : Option FunctionCall := none
  functionResponse : Option FunctionResponse := none
  executableCode : Bool := false
  codeExecutionResult : Bool := false

/-- genai.Content: one conversation Turn, a role with a part list
(`Parts []*genai.Part`, whose entries may be nil). -/
structure Content where
  role : String := ""
  parts : List (Option Part) := []

/-- anthropic.MessageParamRole: exactly the two alternation-compatible
wire roles. -/
inductive Role where
  | user
  | assistant
  deriving DecidableEq

/-- anthropic.ImageBlockParamSourceUnion: base64 data plus media type, or URL. -/
inductive ImageSource where
  | base64 (data : String) (mediaType : String)
  | url (u : String)

/-- anthropic.DocumentBlockParamSourceUnion: base64 PDF data or URL. -/
inductive DocumentSource where
  | base64 (data : String)
  | url (u : String)

/-- anthropic.ContentBlockParamUnion: the request-side wire content block. -/
inductive ContentBlock where
  | text (s : String)
  | thinking (thinking : String) (signature : String)
  | image (source : ImageSource)
  | document (source : DocumentSource)
  | toolResult (toolUseID : String) (content : String) (isError : Bool)
  | toolUse (id : String) (name : String) (input : List (String × JSON))

/-- anthropic.MessageParam: a wire message, role plus ordered content blocks. -/
structure MessageParam where
  role : Role
  content : List ContentBlock

/-- mapRole (request.go): case-insensitive mapping of the neutral role string;
anything but user/model/assistant is an error. -/
def mapRole (role : String) : Except String Role :=
  let r := strToLower role
  if r = "user" then .ok .user
  else if r = "model" ∨ r = "assistant" then .ok .assistant
  else .error ("unsupported role: " ++ role)

/-- mapImageMediaType (request.go): the four supported image subtypes; all
others are an unsupported-media-type error. -/
def mapImageMediaType (mimeType : String) : Except String String :=
  if mimeType = "image/jpeg" then .ok "image/jpeg"
  else if mimeType = "image/png" then .ok "image/png"
  else if mimeType = "image/gif" then .ok "image/gif"
  else if mimeType = "image/webp" then .ok "image/webp"
  else .error ("unsupported image media type: " ++ mimeType)

/-- inlineDataToBlock (request.go): inline binary to a base64-sourced image or
document block, branching on the lower-cased MIME type. -/
def inlineDataToBlock (blob : Option Blob) : Except String (Option ContentBlock) :=
  match blob with
  | none => .ok none
  | some b =>
    let mimeType := strToLower b.mimeType
    if strHasPrefix "image/" mimeType then
      match mapImageMediaType mimeType with
      | .error e => .error e
      | .ok mediaType =>
        .ok (some (.image (.base64 (base64Encode b.data) mediaType)))
    else if mimeType = "application/pdf" then
      .ok (some (.document (.base64 (base64Encode b.data))))
    else
      .error ("unsupported MIME type for inline data: " ++ mimeType)

/-- fileDataToBlock (request.go): URI-based file data to a URL-sourced image or
document block.  Note: every MIME type with prefix `image/` is accepted here;
there is no subtype check through `mapImageMediaType`. -/
def fileDataToBlock (fileData : Option FileData) : Except String (Option ContentBlock) :=
  match fileData with
  | none => .ok none
  | some fd =>
    let mimeType := strToLower fd.mimeType
    if strHasPrefix "image/" mimeType then
      .ok (some (.image (.url fd.fileURI)))
    else if mimeType = "application/pdf" then
      .ok (some (.document (.url fd.fileURI)))
    else
      .error ("unsupported MIME type for file data: " ++ mimeType)

/-- functionResponseToBlock (request.go): tool-result block; the content is the
JSON-serialized result map (empty string for a nil map), the correlation id is
the response id with the name as fallback, and the error flag is always false. -/
def functionResponseToBlock (resp : Option FunctionResponse) :
    Except String (Option ContentBlock) :=
  match resp with
  | none => .ok none
  | some r =>
    let content :=
      match r.response with
      | none => ""
      | some m => jsonMarshal (.obj m)
    let toolUseID := if r.id = "" then r.name else r.id
    .ok (some (.toolResult toolUseID content false))

/-- functionCallToBlock (request.go): tool-use block from id, name, and the
argument map defaulted to an empty map when nil. -/
def functionCallToBlock (call : Option FunctionCall) :
    Except String (Option ContentBlock) :=
  match call with
  | none => .ok none
  | some c =>
    let input := c.args.getD []
    .ok (some (.toolUse c.id c.name input))

/-- PartToContentBlock (request.go): dispatch on the populated Part variant, in
source order: text (thought with a non-empty signature becomes a thinking
block, thought without signature degrades to plain text), inline data, file
data, function response, function call, then the unsupported executable-code
variants; a Part with nothing set converts to nothing. -/
def PartToContentBlock (part : Option Part) : Except String (Option ContentBlock) :=
  match part with
  | none => .ok none
  | some p =>
    if p.text ≠ "" then
      if p.thought ∧ p.thoughtSignature.length > 0 then
        .ok (some (.thinking p.text (base64Encode p.thoughtSignature)))
      else
        .ok (some (.text p.text))
    else if p.inlineData.isSome then
      inlineDataToBlock p.inlineData
    else if p.fileData.isSome then
      fileDataToBlock p.fileData
    else if p.functionResponse.isSome then
      functionResponseToBlock p.functionResponse
    else if p.functionCall.isSome then
      functionCallToBlock p.functionCall
    else if p.executableCode ∨ p.codeExecutionResult then
      .error "ExecutableCode and CodeExecutionResult are not supported by Anthropic"
    else
      .ok none

/-- Part-conversion loop of contentToMessage (request.go): skip nil parts,
propagate the first error (wrapped), collect non-nil blocks in order. -/
def partsToBlocks : List (Option Part) → Except String (List ContentBlock)
  | [] => .ok []
  | none :: rest => partsToBlocks rest
  | some p :: rest =>
    match PartToContentBlock (some p) with
    | .error e => .error ("failed to convert part: " ++ e)
    | .ok none => partsToBlocks rest
    | .ok (some b) =>
      match partsToBlocks rest with
      | .error e => .error e
      | .ok bs => .ok (b :: bs)

/-- Part scan of contentToMessage (request.go): does any non-nil part carry a
FunctionResponse? -/
def hasFunctionResponse (parts : List (Option Part)) : Bool :=
  parts.any fun p =>
    match p with
    | some part => part.functionResponse.isSome
    | none => false

/-- Part scan of contentToMessage (request.go): does any non-nil part carry a
FunctionCall? -/
def hasFunctionCall (parts : List (Option Part)) : Bool :=
  parts.any fun p =>
    match p with
    | some part => part.functionCall.isSome
    | none => false

/-- contentToMessage (request.go): role is forced to user by any
FunctionResponse part, else to assistant by any FunctionCall part, else mapped
from the declared role; a nil or all-empty Turn converts to no message. -/
def contentToMessage (content : Option Content) : Except String (Option MessageParam) :=
  match content with
  | none => .ok none
  | some c =>
    if c.parts.length = 0 then .ok none
    else
      let roleE : Except String Role :=
        if hasFunctionResponse c.parts then .ok .user
        else if hasFunctionCall c.parts then .ok .assistant
        else mapRole c.role
      match roleE with
      | .error e => .error e
      | .ok role =>
        match partsToBlocks c.parts with
        | .error e => .error e
        | .ok blocks =>
          if blocks.length = 0 then .ok none
          else .ok (some { role := role, content := blocks })

/-- Merge loop of mergeConsecutiveMessages (request.go).  The accumulator is
kept in reverse order (the Go code appends to the tail of `merged` and
inspects its last element; here the last element is the head). -/
def mergeLoop : List MessageParam → List MessageParam → List MessageParam
  | acc, [] => acc.reverse
  | [], msg :: rest => mergeLoop [msg] rest
  | last :: accRest, msg :: rest =>
    if last.role = msg.role then
      mergeLoop ({ role := last.role, content := last.content ++ msg.content } :: accRest) rest
    else
      mergeLoop (msg :: last :: accRest) rest

/-- mergeConsecutiveMessages (request.go): single left-to-right pass appending
the blocks of a same-role message onto the previously emitted message. -/
def mergeConsecutiveMessages (messages : List MessageParam) : List MessageParam :=
  if messages.length ≤ 1 then messages
  else mergeLoop [] messages

/-- Content-conversion loop of ContentsToMessages (request.go): skip nil
contents, propagate the first error (wrapped), collect the produced messages
in order. -/
def contentsLoop : List (Option Content) → Except String (List MessageParam)
  | [] => .ok []
  | none :: rest => contentsLoop rest
  | some c :: rest =>
    match contentToMessage (some c) with
    | .error e => .error ("failed to convert content: " ++ e)
    | .ok none => contentsLoop rest
    | .ok (some m) =>
      match contentsLoop rest with
      | .error e => .error e
      | .ok ms => .ok (m :: ms)

/-- ContentsToMessages (request.go): empty input is success with an empty
message list; otherwise convert each Turn and repair alternation by merging
consecutive same-role messages. -/
def ContentsToMessages (contents : List (Option Content)) :
    Except String (List MessageParam) :=
  if contents.length = 0 then .ok []
  else
    match contentsLoop contents with
    | .error e => .error e
    | .ok msgs => .ok (mergeConsecutiveMessages msgs)

/-- genai.NewContentFromText (external genai helper, modelled from its use in
anthropic.go): a single-text-part Turn with the given role. -/
def newContentFromText (text role : String) : Content :=
  { role := role, parts := [some { text := text }] }

/-- maybeAppendUserContent (anthropic.go): an empty conversation gets one
synthetic user Turn; otherwise, when the last element is a non-nil Turn whose
declared Role differs from "user", one synthetic user continuation Turn is
appended; in every other case (nil last element, or declared role "user")
nothing is appended.  The check is on the declared `Role` string only. -/
def maybeAppendUserContent (contents : List (Option Content)) : List (Option Content) :=
  match contents.getLast? with
  | none =>
    contents ++
      [some (newContentFromText
        "Handle the requests as specified in the System Instruction." "user")]
  | some none => contents
  | some (some last) =>
    if last.role ≠ "user" then
      contents ++
        [some (newContentFromText
          "Continue processing previous requests as instructed." "user")]
    else contents

/-! Response side (response.go): wire message to neutral LLMResponse. -/

/-- anthropic.TextCitationUnion: the fields of the citation union that
`textCitationsToSlice` reads, discriminated by `type`. -/
structure TextCitation where
  type : String := ""
  documentTitle : String := ""
  title : String := ""
  url : String := ""
  startCharIndex : Int := 0
  endCharIndex : Int := 0

/-- genai.Citation (the fields written by `textCitationsToSlice`). -/
structure Citation where
  startIndex : Int := 0
  endIndex : Int := 0
  title : String := ""
  uri : String := ""

/-- anthropic.WebSearchResultBlock: one web search result. -/
structure WebSearchResult where
  title : String := ""
  url : String := ""
  pageAge : String := ""

/-- anthropic.WebSearchToolResultBlockContentUnion: the two accessors used by
`webSearchResultToFunctionResponse` (a result array or an error code). -/
structure WebSearchContent where
  results : List WebSearchResult := []
  errorCode : String := ""

/-- anthropic.ContentBlockUnion: the response-side wire content block.
`toolUse` carries the argument map already decoded from its raw JSON payload
(none models both nil input and a payload that fails to decode, which the
source maps to an empty map). -/
inductive RespBlock where
  | text (s : String) (citations : List TextCitation)
  | thinking (thinking : String) (signature : String)
  | redactedThinking
  | toolUse (id : String) (name : String) (input : Option (List (String × JSON)))
  | serverToolUse (id : String) (name : String) (input : Option (List (String × JSON)))
  | webSearchToolResult (toolUseID : String) (content : WebSearchContent)
  | unknown

/-- anthropic.Usage: the two token counters read by `UsageToMetadata`
(Go int64). -/
structure Usage where
  inputTokens : Int := 0
  outputTokens : Int := 0

/-- anthropic.Message: content blocks, usage, and the stop reason string. -/
structure Message where
  content : List RespBlock := []
  usage : Usage := {}
  stopReason : String := ""

/-- genai.GenerateContentResponseUsageMetadata (the fields written by
`UsageToMetadata`; int32 in Go). -/
structure UsageMetadata where
  promptTokenCount : Int := 0
  candidatesTokenCount : Int := 0
  totalTokenCount : Int := 0

/-- genai.FinishReason values produced by `StopReasonToFinishReason`. -/
inductive FinishReason where
  | stop
  | maxTokens
  | unspecified
  deriving DecidableEq

/-- genai.CitationMetadata: a citation list. -/
structure CitationMetadata where
  citations : List Citation := []

/-- model.LLMResponse (the fields this core writes).  `interim` models the Go
field `Partial` (renamed: reserved word in Lean). -/
structure LLMResponse where
  content : Option Content := none
  usageMetadata : Option UsageMetadata := none
  finishReason : FinishReason := .unspecified
  citationMetadata : Option CitationMetadata := none
  interim : Bool := false
  turnComplete : Bool := false
  errorCode : String := ""
  errorMessage : String := ""

/-- Model of Go's `int32(x)` conversion of an int64: two's-complement
truncation to 32 bits. -/
def toInt32 (n : Int) : Int := (n + 2 ^ 31) % 2 ^ 32 - 2 ^ 31

/-- UsageToMetadata (response.go): prompt and candidates counts copied from
wire input/output tokens; the total is computed as their sum (the wire usage
carries no total of its own).  Each store goes through Go's int32 conversion. -/
def UsageToMetadata (usage : Usage) : UsageMetadata :=
  { promptTokenCount := toInt32 usage.inputTokens
    candidatesTokenCount := toInt32 usage.outputTokens
    totalTokenCount := toInt32 (usage.inputTokens + usage.outputTokens) }

/-- StopReasonToFinishReason (response.go): fixed lookup with an unspecified
default. -/
def StopReasonToFinishReason (sr : String) : FinishReason :=
  if sr = "end_turn" then .stop
  else if sr = "max_tokens" then .maxTokens
  else if sr = "stop_sequence" then .stop
  else if sr = "tool_use" then .stop
  else .unspecified

/-- webSearchResultToFunctionResponse (response.go): a FunctionResponse part
named web_search keyed by the originating tool-use id, carrying a results list
or an error code. -/
def webSearchResultToFunctionResponse (toolUseID : String)
    (content : WebSearchContent) : Part :=
  let response : List (String × JSON) :=
    if content.results.length > 0 then
      [("results", .arr (content.results.map fun r =>
        .obj [("title", .str r.title), ("url", .str r.url), ("pageAge", .str r.pageAge)]))]
    else if content.errorCode ≠ "" then
      [("error", .str content.errorCode)]
    else []
  { functionResponse := some
      { id := toolUseID, name := "web_search", response := some response } }

/-- ContentBlockToGenaiPart (response.go): map each wire block independently;
unknown variants are skipped (nil part). -/
def ContentBlockToGenaiPart (block : RespBlock) : Option Part :=
  match block with
  | .text s _ => some { text := s }
  | .thinking th sig =>
    some { text := th, thought := true, thoughtSignature := base64Decode sig }
  | .redactedThinking => some { text := "[thinking redacted]", thought := true }
  | .toolUse id name input =>
    some { functionCall := some { id := id, name := name, args := some (input.getD []) } }
  | .serverToolUse id name input =>
    some { functionCall := some { id := id, name := name, args := some (input.getD []) } }
  | .webSearchToolResult toolUseID content =>
    some (webSearchResultToFunctionResponse toolUseID content)
  | .unknown => none

/-- textCitationsToSlice (response.go): per-citation type-discriminated
mapping into neutral citations. -/
def textCitationsToSlice (citations : List TextCitation) : List Citation :=
  citations.map fun c =>
    if c.type = "char_location" then
      { title := c.documentTitle, startIndex := toInt32 c.startCharIndex,
        endIndex := toInt32 c.endCharIndex }
    else if c.type = "web_search_result_location" then
      { title := c.title, uri := c.url }
    else if c.type = "search_result_location" then
      { title := c.title }
    else
      { title := c.documentTitle }

/-- Block loop of MessageToLLMResponse (response.go): collect the non-nil
converted parts in order. -/
def blocksToParts : List RespBlock → List (Option Part)
  | [] => []
  | b :: rest =>
    match ContentBlockToGenaiPart b with
    | some p => some p :: blocksToParts rest
    | none => blocksToParts rest

/-- Citation collection loop of MessageToLLMResponse (response.go): citations
of text blocks, in block order. -/
def collectCitations : List RespBlock → List Citation
  | [] => []
  | .text _ cits :: rest => textCitationsToSlice cits ++ collectCitations rest
  | _ :: rest => collectCitations rest

/-- MessageToLLMResponse (response.go): a nil message yields a response
carrying a generic unknown-error code instead of an error; otherwise the
blocks become a role-model content Turn, with usage, finish reason and merged
citations. -/
def MessageToLLMResponse (msg : Option Message) : LLMResponse :=
  match msg with
  | none =>
    { errorCode := "UNKNOWN_ERROR", errorMessage := "nil message received" }
  | some m =>
    let content : Content := { role := "model", parts := blocksToParts m.content }
    let allCitations := collectCitations m.content
    { content := some content
      usageMetadata := some (UsageToMetadata m.usage)
      finishReason := StopReasonToFinishReason m.stopReason
      citationMetadata :=
        if allCitations.length > 0 then some { citations := allCitations } else none }

/-- StreamDeltaToPartialResponse (response.go): a partial response whose sole
part is the incremental text delta. -/
def StreamDeltaToPartialResponse (text : String) : LLMResponse :=
  { content := some { role := "model", parts := [some { text := text }] }
    interim := true }

/-- StreamThinkingDeltaToPartialResponse (response.go): a partial response
whose sole part is the incremental thinking delta, thought-flagged. -/
def StreamThinkingDeltaToPartialResponse (thinking : String) : LLMResponse :=
  { content := some { role := "model", parts := [some { text := thinking, thought := true }] }
    interim := true }

/-! Streaming loop (anthropic.go, generateStream). -/

/-- Wire stream events as dispatched by the generateStream loop: content-block
delta events carrying a text or thinking delta, and the remaining event kinds,
which yield nothing themselves. -/
inductive StreamEvent where
  | textDelta (text : String)
  | thinkingDelta (thinking : String)
  | otherEvent

/-- Modelled from the spec: the accumulation of a text delta into the running
message, appending the delta to the trailing text block (or opening one).
This stands in for the external SDK's `anthropic.Message.Accumulate`, which is
not part of this repository; the spec describes it as appending delta text
into the block at the given index. -/
def appendTextDelta : List RespBlock → String → List RespBlock
  | [], t => [.text t []]
  | [.text s cits], t => [.text (s ++ t) cits]
  | [other], t => [other, .text t []]
  | b :: rest, t => b :: appendTextDelta rest t

/-- Modelled from the spec: the accumulation of a thinking delta into the
running message, appending to the trailing thinking block (or opening one);
stands in for the external SDK accumulator like `appendTextDelta`. -/
def appendThinkingDelta : List RespBlock → String → List RespBlock
  | [], t => [.thinking t ""]
  | [.thinking s sig], t => [.thinking (s ++ t) sig]
  | [other], t => [other, .thinking t ""]
  | b :: rest, t => b :: appendThinkingDelta rest t

/-- Modelled from the spec: one step of the SDK message accumulator
(`message.Accumulate(event)` in generateStream); non-delta events leave the
accumulated content unchanged here. -/
def accumulate (msg : Message) : StreamEvent → Message
  | .textDelta t => { msg with content := appendTextDelta msg.content t }
  | .thinkingDelta t => { msg with content := appendThinkingDelta msg.content t }
  | .otherEvent => msg

/-- Event loop of generateStream (anthropic.go): each event is folded into the
accumulated message; a text or thinking delta additionally yields one partial
response carrying only the delta; on exhaustion the fully accumulated message
is translated and emitted once with the turn-complete flag set. -/
def generateStreamLoop (message : Message) : List StreamEvent → List LLMResponse
  | [] =>
    let finalResp := MessageToLLMResponse (some message)
    [{ finalResp with turnComplete := true }]
  | ev :: rest =>
    let message := accumulate message ev
    match ev with
    | .textDelta t => StreamDeltaToPartialResponse t :: generateStreamLoop message rest
    | .thinkingDelta t =>
      StreamThinkingDeltaToPartialResponse t :: generateStreamLoop message rest
    | .otherEvent => generateStreamLoop message rest

/-- generateStream (anthropic.go) over an error-free event sequence, starting
from the empty accumulated message. -/
def generateStream (events : List StreamEvent) : List LLMResponse :=
  generateStreamLoop {} events

/-! Tool schema translator (tools.go). -/

/-- genai.Schema (the fields read by `schemaToMap`).  Go's `map[string]*Schema`
is an association list whose values may be nil; a nil map is `none`.  The
float64 bounds are modelled as integers (no claim touches them).  `dflt`
models the Go field `Default`. -/
structure GenaiSchema where
  type : String
  description : String
  enum : List String
  format : String
  items : Option GenaiSchema
  properties : Option (List (String × Option GenaiSchema))
  required : List String
  nullable : Option Bool
  dflt : Option JSON
  minimum : Option Int
  maximum : Option Int
  minLength : Option Int
  maxLength : Option Int
  minItems : Option Int
  maxItems : Option Int
  pattern : String
  anyOf : List (Option GenaiSchema)

/-- Zero-value genai.Schema (every field at its Go zero value). -/
def emptySchema : GenaiSchema :=
  ⟨"", "", [], "", none, none, [], none, none, none, none, none, none, none, none, "", []⟩

mutual
/-- schemaToMap (tools.go): a genai.Schema to a wire schema map; every field is
emitted only when set, items/properties/anyOf recursively. -/
def schemaToMap : GenaiSchema → List (String × JSON)
  | ⟨ty, desc, en, fmt, items, props, req, nullable, dflt, mini, maxi,
     minL, maxL, minI, maxI, pat, anyOf⟩ =>
    (if ty ≠ "" then [("type", JSON.str (strToLower ty))] else []) ++
    (if desc ≠ "" then [("description", JSON.str desc)] else []) ++
    (if en.length > 0 then [("enum", JSON.arr (en.map JSON.str))] else []) ++
    (if fmt ≠ "" then [("format", JSON.str fmt)] else []) ++
    (match items with
     | some s => [("items", JSON.obj (schemaToMap s))]
     | none => []) ++
    (match props with
     | some l => if l.length > 0 then [("properties", JSON.obj (schemaPropsAux l))] else []
     | none => []) ++
    (if req.length > 0 then [("required", JSON.arr (req.map JSON.str))] else []) ++
    (match nullable with
     | some b => if b then [("nullable", JSON.boolean true)] else []
     | none => []) ++
    (match dflt with
     | some v => [("default", v)]
     | none => []) ++
    (match mini with | some v => [("minimum", JSON.num v)] | none => []) ++
    (match maxi with | some v => [("maximum", JSON.num v)] | none => []) ++
    (match minL with | some v => [("minLength", JSON.num v)] | none => []) ++
    (match maxL with | some v => [("maxLength", JSON.num v)] | none => []) ++
    (match minI with | some v => [("minItems", JSON.num v)] | none => []) ++
    (match maxI with | some v => [("maxItems", JSON.num v)] | none => []) ++
    (if pat ≠ "" then [("pattern", JSON.str pat)] else []) ++
    (if anyOf.length > 0 then
      match anyOfAux anyOf with
      | [] => []
      | xs => [("anyOf", JSON.arr xs)]
     else [])

/-- Properties loop shared by `schemaToMap` and `schemaPropertiesToMap`
(tools.go): skip nil schemas, convert the rest. -/
def schemaPropsAux : List (String × Option GenaiSchema) → List (String × JSON)
  | [] => []
  | (_, none) :: rest => schemaPropsAux rest
  | (n, some s) :: rest => (n, JSON.obj (schemaToMap s)) :: schemaPropsAux rest

/-- AnyOf loop of `schemaToMap` (tools.go): nil alternatives convert to
nothing and are skipped. -/
def anyOfAux : List (Option GenaiSchema) → List JSON
  | [] => []
  | none :: rest => anyOfAux rest
  | some s :: rest => JSON.obj (schemaToMap s) :: anyOfAux rest
end

/-- schemaPropertiesToMap (tools.go): nil map in, nil map out; otherwise the
per-property conversion skipping nil values. -/
def schemaPropertiesToMap (props : Option (List (String × Option GenaiSchema))) :
    Option (List (String × JSON)) :=
  match props with
  | none => none
  | some l => some (schemaPropsAux l)

/-- jsonschema.Schema (google/jsonschema-go; the fields read by
`jsonSchemaPropertyToMap`). -/
structure JSONSchema where
  type : String
  description : String
  enum : List JSON
  items : Option JSONSchema
  properties : Option (List (String × Option JSONSchema))
  required : List String

/-- Zero-value jsonschema.Schema. -/
def emptyJSONSchema : JSONSchema := ⟨"", "", [], none, none, []⟩

mutual
/-- jsonSchemaToProperties (tools.go): nil schema or nil properties give nil;
otherwise every entry is converted (a nil property schema converts to the nil
map, stored as a null value). -/
def jsonSchemaToProperties : Option JSONSchema → Option (List (String × JSON))
  | none => none
  | some s =>
    match s with
    | ⟨_, _, _, _, props, _⟩ =>
      match props with
      | none => none
      | some l => some (jsonSchemaPropsAux l)

/-- Properties loop of `jsonSchemaToProperties` (tools.go). -/
def jsonSchemaPropsAux : List (String × Option JSONSchema) → List (String × JSON)
  | [] => []
  | (n, none) :: rest => (n, JSON.null) :: jsonSchemaPropsAux rest
  | (n, some s) :: rest => (n, JSON.obj (jsonSchemaPropertyToMap s)) :: jsonSchemaPropsAux rest

/-- jsonSchemaPropertyToMap (tools.go): only type, description, enum, items,
properties and required are carried over from this representation. -/
def jsonSchemaPropertyToMap : JSONSchema → List (String × JSON)
  | ⟨ty, desc, en, items, props, req⟩ =>
    (if ty ≠ "" then [("type", JSON.str ty)] else []) ++
    (if desc ≠ "" then [("description", JSON.str desc)] else []) ++
    (if en.length > 0 then [("enum", JSON.arr en)] else []) ++
    (match items with
     | some s => [("items", JSON.obj (jsonSchemaPropertyToMap s))]
     | none => []) ++
    (match props with
     | some l => [("properties", JSON.obj (jsonSchemaPropsAux l))]
     | none => []) ++
    (if req.length > 0 then [("required", JSON.arr (req.map JSON.str))] else [])
end

/-- ParametersJsonSchema values distinguished by the type switch in
FunctionDeclarationToTool (tools.go): a generic key mapping, a structured
jsonschema.Schema, or any other (ignored) type. -/
inductive ParamsJsonSchema where
  | mapAny (m : List (String × JSON))
  | schemaCase (s : JSONSchema)
  | otherType

/-- genai.FunctionDeclaration (the fields read by
FunctionDeclarationToTool). -/
structure FunctionDeclaration where
  name : String := ""
  description : String := ""
  parameters : Option GenaiSchema := none
  parametersJsonSchema : Option ParamsJsonSchema := none

/-- anthropic.ToolInputSchemaParam: an object-rooted schema with properties
and required list. -/
structure ToolInputSchema where
  properties : List (String × JSON) := []
  required : List String := []

/-- anthropic.ToolParam as built by FunctionDeclarationToTool. -/
structure ToolParam where
  name : String := ""
  description : String := ""
  inputSchema : ToolInputSchema := {}

/-- Association-list lookup, modelling Go map indexing `schema["key"]`. -/
def lookupKey (m : List (String × JSON)) (key : String) : Option JSON :=
  match m with
  | [] => none
  | (k, v) :: rest => if k = key then some v else lookupKey rest key

/-- extractRequiredFields (tools.go): nil gives nil; a list value keeps its
string elements (covering both the `[]string` and `[]any`-of-strings shapes);
any other value gives nil. -/
def extractRequiredFields (v : Option JSON) : List String :=
  match v with
  | none => []
  | some (.arr xs) =>
    xs.foldr
      (fun x acc =>
        match x with
        | .str s => s :: acc
        | _ => acc) []
  | some _ => []

/-- FunctionDeclarationToTool (tools.go): the input schema starts as an empty
object schema; a structured `Parameters` schema, when present, is used
exclusively; otherwise `ParametersJsonSchema` is consulted in its two
supported shapes; other shapes leave the empty schema. -/
def FunctionDeclarationToTool (fd : FunctionDeclaration) : ToolParam :=
  let inputSchema : ToolInputSchema := { properties := [], required := [] }
  let inputSchema :=
    match fd.parameters with
    | some p =>
      let s1 :=
        match schemaPropertiesToMap p.properties with
        | some props => { inputSchema with properties := props }
        | none => inputSchema
      if p.required.length > 0 then { s1 with required := p.required } else s1
    | none =>
      match fd.parametersJsonSchema with
      | some (.mapAny m) =>
        let s1 :=
          match lookupKey m "properties" with
          | some (.obj props) => { inputSchema with properties := props }
          | _ => inputSchema
        { s1 with required := extractRequiredFields (lookupKey m "required") }
      | some (.schemaCase s) =>
        let s1 :=
          match jsonSchemaToProperties (some s) with
          | some props => { inputSchema with properties := props }
          | none => inputSchema
        if s.required.length > 0 then { s1 with required := s.required } else s1
      | some .otherType => inputSchema
      | none => inputSchema
  { name := fd.name, description := fd.description, inputSchema := inputSchema }

/-! Helper lemmas about the merge pass. -/

/-- Roles of adjacent wire messages differ (the alternation invariant). -/
def RolesAlternate (msgs : List MessageParam) : Prop :=
  List.Chain' (fun a b => a.role ≠ b.role) msgs

/-- Concatenation of all content blocks of a message list, in order. -/
def allBlocks : List MessageParam → List ContentBlock
  | [] => []
  | m :: rest => m.content ++ allBlocks rest

/-- Error flag of a tool-result block (none for every other block kind). -/
def blockErrorFlag : ContentBlock → Option Bool
  | .toolResult _ _ e => some e
  | _ => none

/-- Concrete Turn: declared role model, single FunctionResponse part (its
effective wire role is therefore user). -/
def frTurn : Content :=
  { role := "model", parts := [some { functionResponse := some { id := "i1", name := "f" } }] }

/-- Concrete Turn containing both a FunctionCall part and a FunctionResponse
part. -/
def bothTurn : Content :=
  { role := "model",
    parts := [some { functionCall := some { id := "i1", name := "f" } },
              some { functionResponse := some { id := "i1", name := "f" } }] }

/-- Concrete function declaration carrying both a structured schema (property
a) and a raw JSON-schema (property b). -/
def fdBoth : FunctionDeclaration :=
  { name := "t",
    parameters := some { emptySchema with
      properties := some [("a", some { emptySchema with type := "STRING" })] },
    parametersJsonSchema := some (.mapAny
      [("properties", .obj [("b", .obj [("type", .str "string")])])]) }

theorem allBlocks_append (xs ys : List MessageParam) :
    allBlocks (xs ++ ys) = allBlocks xs ++ allBlocks ys := by
  induction xs with
  | nil => simp [allBlocks]
  | cons m rest ih => simp [allBlocks, ih]

theorem mergeLoop_nil (acc : List MessageParam) : mergeLoop acc [] = acc.reverse := by
  cases acc <;> rfl

theorem mergeLoop_chain (input : List MessageParam) :
    ∀ acc, List.Chain' (fun a b => a.role ≠ b.role) acc →
      RolesAlternate (mergeLoop acc input) := by
  induction input with
  | nil =>
    intro acc hacc
    unfold RolesAlternate
    rw [mergeLoop_nil, List.chain'_reverse]
    exact hacc.imp fun a b h => Ne.symm h
  | cons msg rest ih =>
    intro acc hacc
    match acc with
    | [] =>
      rw [mergeLoop]
      exact ih [msg] (List.chain'_singleton msg)
    | last :: accRest =>
      rw [mergeLoop]
      by_cases h : last.role = msg.role
      · rw [if_pos h]
        apply ih
        rw [List.chain'_cons'] at hacc ⊢
        exact ⟨fun y hy => hacc.1 y hy, hacc.2⟩
      · rw [if_neg h]
        apply ih
        exact List.Chain'.cons (fun hh => h (Eq.symm hh)) hacc

theorem mergeLoop_blocks (input : List MessageParam) :
    ∀ acc, allBlocks (mergeLoop acc input) = allBlocks acc.reverse ++ allBlocks input := by
  induction input with
  | nil => intro acc; rw [mergeLoop_nil]; simp [allBlocks]
  | cons msg rest ih =>
    intro acc
    match acc with
    | [] =>
      rw [mergeLoop, ih [msg]]
      simp [allBlocks]
    | last :: accRest =>
      rw [mergeLoop]
      by_cases h : last.role = msg.role
      · rw [if_pos h, ih]
        simp only [allBlocks, List.reverse_cons, allBlocks_append]
        simp [allBlocks, List.append_assoc]
      · rw [if_neg h, ih]
        simp only [allBlocks, List.reverse_cons, allBlocks_append]
        simp [allBlocks, List.append_assoc]

theorem mergeConsecutiveMessages_chain (msgs : List MessageParam) :
    RolesAlternate (mergeConsecutiveMessages msgs) := by
  unfold mergeConsecutiveMessages
  by_cases h : msgs.length ≤ 1
  · rw [if_pos h]
    match msgs with
    | [] => exact List.chain'_nil
    | [m] => exact List.chain'_singleton m
    | a :: b :: t => simp at h
  · rw [if_neg h]
    exact mergeLoop_chain msgs [] List.chain'_nil

theorem mergeConsecutiveMessages_blocks (msgs : List MessageParam) :
    allBlocks (mergeConsecutiveMessages msgs) = allBlocks msgs := by
  unfold mergeConsecutiveMessages
  by_cases h : msgs.length ≤ 1
  · rw [if_pos h]
  · rw [if_neg h, mergeLoop_blocks msgs []]
    simp [allBlocks]

theorem contentToMessage_role_eq (c : Content) (m : MessageParam)
    (hok : contentToMessage (some c) = .ok (some m)) :
    Except.ok m.role =
      (if hasFunctionResponse c.parts then Except.ok Role.user
       else if hasFunctionCall c.parts then Except.ok Role.assistant
       else mapRole c.role) := by
  simp only [contentToMessage] at hok
  by_cases hlen : c.parts.length = 0
  · rw [if_pos hlen] at hok; cases hok
  · rw [if_neg hlen] at hok
    split at hok
    next e heq =>
      cases hok
    next role heq =>
      rw [heq]
      split at hok
      next => cases hok
      next blocks hb =>
        by_cases hb0 : blocks.length = 0
        · rw [if_pos hb0] at hok; cases hok
        · rw [if_neg hb0] at hok
          injection hok with hok
          injection hok with hok
          subst hok
          rfl

/-! Claim theorems. -/

/-- C1: for every input turn sequence, the wire message list returned by
`ContentsToMessages` has no two consecutive entries with equal role. -/
theorem C1_alternation (contents : List (Option Content)) (msgs : List MessageParam)
    (h : ContentsToMessages contents = .ok msgs) : RolesAlternate msgs := by
  unfold ContentsToMessages at h
  by_cases hlen : contents.length = 0
  · rw [if_pos hlen] at h
    injection h with h
    subst h
    exact List.chain'_nil
  · rw [if_neg hlen] at h
    cases hcl : contentsLoop contents with
    | error e => rw [hcl] at h; cases h
    | ok ms =>
      rw [hcl] at h
      injection h with h
      subst h
      exact mergeConsecutiveMessages_chain ms

/-- C1 witness: alternation of the translation of a concrete user/model
two-turn conversation. -/
theorem C1_witness :
    RolesAlternate [{ role := Role.user, content := [ContentBlock.text "hi"] },
                    { role := Role.assistant, content := [ContentBlock.text "yo"] }] :=
  C1_alternation
    [some { role := "user", parts := [some { text := "hi" }] },
     some { role := "model", parts := [some { text := "yo" }] }]
    _ (by rfl)

/-- C2 counterexample: a Turn containing both a FunctionCall part and a
FunctionResponse part translates to wire role user, not assistant, refuting
the claim's unconditional FunctionCall-forces-assistant conjunct. -/
theorem C2_counterexample :
    hasFunctionCall bothTurn.parts = true ∧
    contentToMessage (some bothTurn) =
      .ok (some { role := Role.user,
                  content := [.toolUse "i1" "f" [], .toolResult "i1" "" false] }) ∧
    Role.user ≠ Role.assistant :=
  ⟨rfl, rfl, by decide⟩

/-- C2 (amended): a Turn with any FunctionResponse part always translates to
wire role user regardless of its declared role; a Turn with any FunctionCall
part and no FunctionResponse part always translates to wire role assistant
regardless of its declared role. -/
theorem C2_role_forcing :
    (∀ (c : Content) (m : MessageParam), hasFunctionResponse c.parts = true →
      contentToMessage (some c) = .ok (some m) → m.role = .user) ∧
    (∀ (c : Content) (m : MessageParam), hasFunctionResponse c.parts = false →
      hasFunctionCall c.parts = true →
      contentToMessage (some c) = .ok (some m) → m.role = .assistant) := by
  constructor
  · intro c m hfr hok
    have h := contentToMessage_role_eq c m hok
    rw [hfr] at h
    simp at h
    exact h
  · intro c m hfr hfc hok
    have h := contentToMessage_role_eq c m hok
    rw [hfr, hfc] at h
    simp at h
    exact h

/-- C2 witness: the forcing rules applied to a declared-model Turn holding a
FunctionResponse and a declared-user Turn holding a FunctionCall. -/
theorem C2_witness :
    ({ role := Role.user, content := [.toolResult "i1" "" false] } : MessageParam).role = .user ∧
    ({ role := Role.assistant, content := [.toolUse "i1" "f" [] ] } : MessageParam).role = .assistant :=
  ⟨C2_role_forcing.1 frTurn _ rfl (by rfl),
   C2_role_forcing.2 { role := "user", parts := [some { functionCall := some { id := "i1", name := "f" } }] }
     _ rfl rfl (by rfl)⟩

/-- C3 counterexample: a sequence ending in a Turn whose effective wire role is
user (declared role model, FunctionResponse part — the translation shown gives
role user) still gets a synthetic continuation Turn appended, refuting the
claim that nothing is appended after an effective-role-user Turn:
`maybeAppendUserContent` inspects only the declared role string. -/
theorem C3_counterexample :
    contentToMessage (some frTurn) =
      .ok (some { role := Role.user, content := [.toolResult "i1" "" false] }) ∧
    maybeAppendUserContent [some frTurn] =
      [some frTurn,
       some (newContentFromText "Continue processing previous requests as instructed." "user")] :=
  ⟨rfl, rfl⟩

/-- C3 (amended): exactly one synthetic user Turn is appended when the
sequence is empty or its last element is a non-nil Turn whose declared role
differs from user; nothing is appended when the last element is a non-nil
Turn with declared role user, or a nil Turn. -/
theorem C3_continuation :
    (maybeAppendUserContent [] =
      [some (newContentFromText
        "Handle the requests as specified in the System Instruction." "user")]) ∧
    (∀ (contents : List (Option Content)) (last : Content),
      contents.getLast? = some (some last) → last.role ≠ "user" →
      maybeAppendUserContent contents =
        contents ++ [some (newContentFromText
          "Continue processing previous requests as instructed." "user")]) ∧
    (∀ (contents : List (Option Content)) (last : Content),
      contents.getLast? = some (some last) → last.role = "user" →
      maybeAppendUserContent contents = contents) ∧
    (∀ (contents : List (Option Content)),
      contents.getLast? = some none → maybeAppendUserContent contents = contents) := by
  refine ⟨rfl, ?_, ?_, ?_⟩
  · intro contents last hlast hne
    simp only [maybeAppendUserContent, hlast]
    rw [if_pos hne]
  · intro contents last hlast hu
    simp only [maybeAppendUserContent, hlast]
    rw [if_neg (fun hh => hh hu)]
  · intro contents hlast
    simp only [maybeAppendUserContent, hlast]

/-- C3 witness: one Turn appended after a declared-model Turn; nothing
appended after a declared-user Turn or a nil last element. -/
theorem C3_witness :
    maybeAppendUserContent [some frTurn] =
      [some frTurn, some (newContentFromText
        "Continue processing previous requests as instructed." "user")] ∧
    maybeAppendUserContent [some (newContentFromText "hi" "user")] =
      [some (newContentFromText "hi" "user")] ∧
    maybeAppendUserContent [none] = [none] :=
  ⟨C3_continuation.2.1 _ frTurn rfl (by decide),
   C3_continuation.2.2.1 _ _ rfl rfl,
   C3_continuation.2.2.2 _ rfl⟩

/-- C4: for the event sequence textDelta He, textDelta llo, end, the stream
loop yields exactly one partial response per text delta containing only that
delta, followed by exactly one turn-complete response carrying the full
concatenation Hello. -/
theorem C4_streaming :
    generateStream [.textDelta "He", .textDelta "llo", .otherEvent] =
      [ { content := some { role := "model", parts := [some { text := "He" }] },
          interim := true },
        { content := some { role := "model", parts := [some { text := "llo" }] },
          interim := true },
        { content := some { role := "model", parts := [some { text := "Hello" }] },
          usageMetadata := some { promptTokenCount := 0, candidatesTokenCount := 0,
                                  totalTokenCount := 0 },
          finishReason := .unspecified,
          turnComplete := true } ] := by rfl

/-- C5: when a structured schema is present the translated tool is independent
of the raw JSON-schema field (it is ignored even if set), and for the
concrete declaration carrying structured property a and raw property b the
output schema has exactly property a. -/
theorem C5_schema_precedence :
    (∀ (fd : FunctionDeclaration) (p : GenaiSchema), fd.parameters = some p →
      ∀ (raw : Option ParamsJsonSchema),
        FunctionDeclarationToTool { fd with parametersJsonSchema := raw } =
          FunctionDeclarationToTool { fd with parametersJsonSchema := none }) ∧
    ((FunctionDeclarationToTool fdBoth).inputSchema.properties.map Prod.fst = ["a"]) := by
  constructor
  · intro fd p hp raw
    obtain ⟨n, d, params, pjs⟩ := fd
    obtain rfl : params = some p := hp
    rfl
  · rfl

/-- C5 witness: the raw-schema independence applied to the concrete
declaration fdBoth. -/
theorem C5_witness :
    FunctionDeclarationToTool { fdBoth with parametersJsonSchema := some .otherType } =
      FunctionDeclarationToTool { fdBoth with parametersJsonSchema := none } :=
  C5_schema_precedence.1 fdBoth _ rfl (some .otherType)

/-- C6 counterexample: for MIME type image/tiff (outside the supported set)
inline-binary translation fails with an unsupported-media-type error but
file-reference translation succeeds with a URL image block, refuting the
claim that both paths branch identically on the MIME type. -/
theorem C6_counterexample :
    fileDataToBlock (some { mimeType := "image/tiff", fileURI := "u" }) =
      .ok (some (.image (.url "u"))) ∧
    inlineDataToBlock (some { mimeType := "image/tiff", data := [] }) =
      .error "unsupported image media type: image/tiff" :=
  ⟨rfl, rfl⟩

/-- C6 (amended): file-reference translation accepts every MIME type with
prefix image/ (no subtype check, unlike inline binary) as a URL image block,
accepts application/pdf as a URL document block, and fails with an
unsupported-media-type error for every other MIME type. -/
theorem C6_file_branching :
    (∀ (fd : FileData), strHasPrefix "image/" (strToLower fd.mimeType) = true →
      fileDataToBlock (some fd) = .ok (some (.image (.url fd.fileURI)))) ∧
    (∀ (fd : FileData), strToLower fd.mimeType = "application/pdf" →
      fileDataToBlock (some fd) = .ok (some (.document (.url fd.fileURI)))) ∧
    (∀ (fd : FileData), strHasPrefix "image/" (strToLower fd.mimeType) = false →
      strToLower fd.mimeType ≠ "application/pdf" →
      fileDataToBlock (some fd) =
        .error ("unsupported MIME type for file data: " ++ strToLower fd.mimeType)) := by
  refine ⟨?_, ?_, ?_⟩
  · intro fd h
    simp only [fileDataToBlock, h]
    rfl
  · intro fd h
    have hp : strHasPrefix "image/" (strToLower fd.mimeType) = false := by rw [h]; rfl
    simp only [fileDataToBlock, hp, h]
    rfl
  · intro fd hp hne
    simp only [fileDataToBlock]
    rw [if_neg (by rw [hp]; simp), if_neg hne]

/-- C6 witness: the three file-reference branches at concrete MIME types
(image/bmp accepted without a subtype check, application/pdf accepted,
text/plain rejected). -/
theorem C6_witness :
    fileDataToBlock (some { mimeType := "image/bmp", fileURI := "v" }) =
      .ok (some (.image (.url "v"))) ∧
    fileDataToBlock (some { mimeType := "application/pdf", fileURI := "w" }) =
      .ok (some (.document (.url "w"))) ∧
    fileDataToBlock (some { mimeType := "text/plain", fileURI := "x" }) =
      .error ("unsupported MIME type for file data: " ++ strToLower "text/plain") :=
  ⟨C6_file_branching.1 _ rfl,
   C6_file_branching.2.1 _ rfl,
   C6_file_branching.2.2 _ rfl (by decide)⟩

/-- C7: translating an empty turn sequence succeeds with an empty message
list, and translating a nil wire message yields a response object carrying
the generic unknown-error condition instead of failing. -/
theorem C7_nil_inputs :
    ContentsToMessages [] = .ok [] ∧
    MessageToLLMResponse none =
      { errorCode := "UNKNOWN_ERROR", errorMessage := "nil message received" } :=
  ⟨rfl, rfl⟩

/-- C8: two consecutive same-role messages merge into one whose block list is
the concatenation of both, in order, and the merge pass preserves the full
block sequence of its input (nothing is dropped or reordered). -/
theorem C8_merge_concat :
    (∀ (m1 m2 : MessageParam), m1.role = m2.role →
      mergeConsecutiveMessages [m1, m2] =
        [{ role := m1.role, content := m1.content ++ m2.content }]) ∧
    (∀ (msgs : List MessageParam),
      allBlocks (mergeConsecutiveMessages msgs) = allBlocks msgs) := by
  constructor
  · intro m1 m2 h
    unfold mergeConsecutiveMessages
    rw [if_neg (by simp)]
    simp only [mergeLoop]
    rw [if_pos h]
    rfl
  · exact mergeConsecutiveMessages_blocks

/-- C8 witness: the merge of two concrete same-role messages. -/
theorem C8_witness :
    mergeConsecutiveMessages
      [{ role := Role.user, content := [.text "a"] },
       { role := Role.user, content := [.text "b"] }] =
      [{ role := Role.user, content := [.text "a", .text "b"] }] :=
  C8_merge_concat.1 _ _ rfl

/-- C9 counterexample: at wire usage input 2 to the 31, output 0, the int32
conversion wraps, so the neutral prompt count and total differ from the wire
input and from input plus output, refuting the claim for every pair. -/
theorem C9_counterexample :
    (UsageToMetadata { inputTokens := 2 ^ 31, outputTokens := 0 }).promptTokenCount ≠ 2 ^ 31 ∧
    (UsageToMetadata { inputTokens := 2 ^ 31, outputTokens := 0 }).totalTokenCount ≠ 2 ^ 31 := by
  constructor <;> decide

/-- C9 (amended): for every wire usage pair of nonnegative counts whose sum is
below 2 to the 31 (so within int32 range), including (0, 0), the neutral
metadata copies input and output and totals their sum; in general the total
is always computed as the int32 truncation of input plus output (the wire
usage carries no total to copy). -/
theorem C9_usage :
    (∀ (input output : Int), 0 ≤ input → 0 ≤ output → input + output < 2 ^ 31 →
      UsageToMetadata { inputTokens := input, outputTokens := output } =
        { promptTokenCount := input, candidatesTokenCount := output,
          totalTokenCount := input + output }) ∧
    (∀ (u : Usage), (UsageToMetadata u).totalTokenCount =
      toInt32 (u.inputTokens + u.outputTokens)) := by
  constructor
  · intro input output h1 h2 h3
    unfold UsageToMetadata toInt32
    simp only [UsageMetadata.mk.injEq]
    refine ⟨?_, ?_, ?_⟩ <;> omega
  · intro u
    rfl

/-- C9 witness: the usage mapping at the concrete pair (10, 20), giving
prompt 10, candidates 20, total 30. -/
theorem C9_witness :
    UsageToMetadata { inputTokens := 10, outputTokens := 20 } =
      { promptTokenCount := 10, candidatesTokenCount := 20, totalTokenCount := 30 } :=
  C9_usage.1 10 20 (by decide) (by decide) (by decide)

/-- C10: every tool-result block produced from a FunctionResponse part has
its error flag set to false, for every input, including responses whose
result map encodes an error. -/
theorem C10_error_flag :
    ∀ (r : FunctionResponse) (b : ContentBlock),
      functionResponseToBlock (some r) = .ok (some b) → blockErrorFlag b = some false := by
  intro r b h
  simp only [functionResponseToBlock] at h
  injection h with h
  injection h with h
  subst h
  rfl

/-- C10 witness: the error flag is false even for a function response whose
result map encodes an error value. -/
theorem C10_witness :
    blockErrorFlag (.toolResult "i" "\x7b\"error\":\"boom\"\x7d" false) = some false :=
  C10_error_flag { id := "i", name := "n", response := some [("error", .str "boom")] } _ (by rfl)

end ADK
